import Mathlib

set_option linter.unusedVariables false

/-! Verification development for the negroni-gzip middleware.

The repository carries two variants of the gzip response writer:
the compressContent variant (src/gzip/gzip.go), whose decision transition is
reachable only from the body-write path and whose deferred finalizer deletes
the Content-Length header after the handler chain returns, and the
WriteHeader variant (src/unnamed/part_001), whose decision transition runs
from both the explicit header-commit path and the body-write path and which
deletes Content-Length at the transition itself.  Both are embedded below,
as namespaces GzipA (src/gzip/gzip.go) and GzipB (src/unnamed/part_001),
over a shared model of header maps, requests and the external codec. -/

/-- Compression decision state, from the status enum in the source.  The
undecided constructor is named COMPRESSION_UNDEFINED in src/gzip/gzip.go and
COMPRESSION_CHECK in src/unnamed/part_001; both denote the same state. -/
inductive Status where
  | COMPRESSION_UNDEFINED
  | COMPRESSION_DISABLED
  | COMPRESSION_ENABLED
deriving DecidableEq

/-- Name used by src/unnamed/part_001 for the undecided state. -/
def COMPRESSION_CHECK : Status := Status.COMPRESSION_UNDEFINED

def encodingGzip : String := "gzip"

def headerAcceptEncoding : String := "Accept-Encoding"

def headerContentEncoding : String := "Content-Encoding"

def headerContentLength : String := "Content-Length"

def headerContentType : String := "Content-Type"

def headerVary : String := "Vary"

def headerSecWebSocketKey : String := "Sec-WebSocket-Key"

def BestCompression : Int := 9

def BestSpeed : Int := 1

def DefaultCompression : Int := -1

def NoCompression : Int := 0

/-- Header map as an association list, modelling the net.http header map in
the single-valued way the middleware uses it (Get, Set, Del). -/
abbrev Headers := List (String × String)

/-- Del removes every entry stored under the key. -/
def headerDel (h : Headers) (k : String) : Headers :=
  h.filter (fun p => !(p.1 == k))

/-- Set replaces whatever was stored under the key by the single new value. -/
def headerSet (h : Headers) (k v : String) : Headers :=
  (k, v) :: headerDel h k

/-- Get returns the stored value, or the empty string when the key is absent,
exactly as the Go header map Get does. -/
def headerGet (h : Headers) (k : String) : String :=
  match h.find? (fun p => p.1 == k) with
  | some p => p.2
  | none => ""

/-- Decides whether the first character list starts the second one. -/
def charsStartWith : List Char → List Char → Bool
  | [], _ => true
  | _ :: _, [] => false
  | a :: sub, b :: s => a == b && charsStartWith sub s

/-- Decides whether the first character list occurs inside the second one. -/
def charsContain : List Char → List Char → Bool
  | sub, [] => sub.isEmpty
  | sub, b :: s => charsStartWith sub (b :: s) || charsContain sub s

/-- Models strings.Contains from the Go standard library: substring test. -/
def strContains (s sub : String) : Bool := charsContain sub.data s.data

/-- Model of the inbound http.Request: only its header map is consumed. -/
structure Request where
  header : Headers

/-- Model of AllowCompressionFunc: the callback is handed the writer (through
which it can read the response headers) and the request, and returns a
boolean verdict. -/
def AllowCompressionFunc := Headers → Request → Bool

/-- Embedding of the handler struct: configured compression level plus the
optional allow callback (a nil Go function value is the none case). -/
structure handler where
  compressionLevel : Int
  allowCompression : Option AllowCompressionFunc

/-- Embedding of New from the source: stores level and callback unchecked. -/
def New (level : Int) (fn : Option AllowCompressionFunc) : handler :=
  { compressionLevel := level, allowCompression := fn }

/-- Embedding of Default from the source. -/
def Default : handler := New DefaultCompression none

/-- Modelled from the spec: the external codec constructor accepts exactly
the compress gzip levels between HuffmanOnly and BestCompression and fails
on every other integer; the middleware only observes success or failure. -/
def validGzipLevel (level : Int) : Bool := decide (-2 ≤ level ∧ level ≤ 9)

/-- Modelled from the spec: the codec writer buffers the bytes it receives,
and its finalize call emits the complete framed compressed stream to the
sink.  The encoding is abstracted as a three byte magic prefix in front of
the payload; only the roundtrip contract with gunzip matters here. -/
def gzipCompress (data : List Nat) : List Nat := 31 :: 139 :: 8 :: data

/-- Modelled from the spec: the matching decompression primitive. -/
def gunzip : List Nat → Option (List Nat)
  | 31 :: 139 :: 8 :: data => some data
  | _ => none

/-- Actions a downstream handler can perform on the response writer handed to
it: body writes, explicit header commits, and header map edits. -/
inductive Ev where
  | write (b : List Nat)
  | writeHeader (code : Nat)
  | setHeader (k v : String)
  | delHeader (k : String)
deriving DecidableEq

/-- Concatenation of every body chunk a downstream script writes. -/
def writesOf : List Ev → List Nat
  | [] => []
  | Ev.write b :: es => b ++ writesOf es
  | Ev.writeHeader _ :: es => writesOf es
  | Ev.setHeader _ _ :: es => writesOf es
  | Ev.delHeader _ :: es => writesOf es

/-- State of a gzipResponseWriter during one response cycle: the shared
response header map, the decision status, the bytes written raw to the
underlying sink, the bytes handed to the gzip writer, the status codes
forwarded to the underlying WriteHeader, and a ghost counter of
allowCompression evaluations. -/
structure Grw where
  headers : Headers
  status : Status
  sink : List Nat
  gzBuf : List Nat
  committed : List Nat
  predCalls : Nat
deriving DecidableEq

/-- Per cycle context: the configured callback, the content type detector
modelling http.DetectContentType, and the inbound request. -/
structure Ctx where
  allowCompression : Option AllowCompressionFunc
  detect : List Nat → String
  req : Request

/-- Models the short circuit condition grw.allowCompression == nil ||
grw.allowCompression(grw, grw.r) shared by both variants. -/
def allowed (ctx : Ctx) (g : Grw) : Bool :=
  match ctx.allowCompression with
  | none => true
  | some f => f g.headers ctx.req

/-- Number of callback evaluations one decision costs: zero when the callback
is nil (the short circuit), one otherwise. -/
def predCost (ctx : Ctx) : Nat :=
  match ctx.allowCompression with
  | none => 0
  | some _ => 1

/-- Callback evaluations a cycle may still spend from a given state: the full
cost while undecided, nothing once the decision is made. -/
def predBudget (ctx : Ctx) (g : Grw) : Nat :=
  if g.status = Status.COMPRESSION_UNDEFINED then predCost ctx else 0

/-- Context built by ServeHTTP for the wrapped downstream call. -/
def mkCtx (h : handler) (detect : List Nat → String) (req : Request) : Ctx :=
  { allowCompression := h.allowCompression, detect := detect, req := req }

/-- Fresh writer state as built by ServeHTTP in both variants. -/
def initGrw (hdrs : Headers) : Grw :=
  { headers := hdrs, status := Status.COMPRESSION_UNDEFINED,
    sink := [], gzBuf := [], committed := [], predCalls := 0 }

/-- Content type sniffing step shared verbatim by both Write methods: when no
Content-Type header is set, detect one from the chunk and set it. -/
def sniffCT (ctx : Ctx) (g : Grw) (b : List Nat) : Grw :=
  if (headerGet g.headers headerContentType).length = 0 then
    { g with headers := headerSet g.headers headerContentType (ctx.detect b) }
  else g

/-- Routing step shared by both Write methods: hand the chunk to the gzip
writer when compression is enabled, to the underlying writer otherwise. -/
def route (g : Grw) (b : List Nat) : Grw :=
  if g.status = Status.COMPRESSION_ENABLED then { g with gzBuf := g.gzBuf ++ b }
  else { g with sink := g.sink ++ b }

/-- Observable outcome of one ServeHTTP call: final response headers, bytes
that reached the underlying sink, forwarded status codes, the final decision
status of the wrapper (none on the passthrough path, where no wrapper is
ever created), and how many times the gzip writer was closed. -/
structure ServeResult where
  headers : Headers
  sink : List Nat
  committed : List Nat
  finalStatus : Option Status
  closeCount : Nat
deriving DecidableEq

/-- Runs the downstream handler directly against the undecorated response
writer: the passthrough path of ServeHTTP in both variants. -/
def runRaw : List Ev → Headers → List Nat → List Nat → ServeResult
  | [], h, s, c =>
    { headers := h, sink := s, committed := c, finalStatus := none, closeCount := 0 }
  | Ev.write b :: es, h, s, c => runRaw es h (s ++ b) c
  | Ev.writeHeader code :: es, h, s, c => runRaw es h s (c ++ [code])
  | Ev.setHeader k v :: es, h, s, c => runRaw es (headerSet h k v) s c
  | Ev.delHeader k :: es, h, s, c => runRaw es (headerDel h k) s c

namespace GzipA

/-- WriteHeader on the compressContent variant writer: the
gzipResponseWriter of src/gzip/gzip.go declares no WriteHeader of its own,
so the call dispatches to the embedded negroni ResponseWriter, which only
forwards the status code.  The decision status is untouched. -/
def WriteHeader (g : Grw) (code : Nat) : Grw :=
  { g with committed := g.committed ++ [code] }

/-- Embedding of gzipResponseWriter.compressContent, src/gzip/gzip.go lines
52 to 65: decide once while undefined (setting Content-Encoding and Vary on
an allowed decision, nothing otherwise), then report whether compression is
enabled.  Content-Length is not touched here. -/
def compressContent (ctx : Ctx) (g : Grw) : Grw × Bool :=
  let g1 :=
    if g.status = Status.COMPRESSION_UNDEFINED then
      if allowed ctx g then
        { g with
          status := Status.COMPRESSION_ENABLED,
          headers := headerSet (headerSet g.headers headerContentEncoding encodingGzip)
            headerVary headerAcceptEncoding,
          predCalls := g.predCalls + predCost ctx }
      else
        { g with
          status := Status.COMPRESSION_DISABLED,
          predCalls := g.predCalls + predCost ctx }
    else g
  (g1, decide (g1.status = Status.COMPRESSION_ENABLED))

/-- Embedding of gzipResponseWriter.Write, src/gzip/gzip.go lines 70 to 79:
sniff the content type on every call when none is set, then route the chunk
through the gzip writer or the raw writer depending on compressContent. -/
def Write (ctx : Ctx) (g : Grw) (b : List Nat) : Grw :=
  let p := compressContent ctx (sniffCT ctx g b)
  if p.2 = true then { p.1 with gzBuf := p.1.gzBuf ++ b }
  else { p.1 with sink := p.1.sink ++ b }

/-- One downstream action against the compressContent variant writer. -/
def step (ctx : Ctx) (g : Grw) : Ev → Grw
  | Ev.write b => Write ctx g b
  | Ev.writeHeader code => WriteHeader g code
  | Ev.setHeader k v => { g with headers := headerSet g.headers k v }
  | Ev.delHeader k => { g with headers := headerDel g.headers k }

/-- Downstream handler script run against the wrapper. -/
def run (ctx : Ctx) : List Ev → Grw → Grw
  | [], g => g
  | e :: es, g => run ctx es (step ctx g e)

/-- Deferred finalizer of handler.ServeHTTP in src/gzip/gzip.go lines 146 to
155: when compression ended up enabled, close the gzip writer (emitting the
framed stream) and then delete the Content-Length header; otherwise do
nothing. -/
def finalize (g : Grw) : ServeResult :=
  if g.status = Status.COMPRESSION_ENABLED then
    { headers := headerDel g.headers headerContentLength,
      sink := g.sink ++ gzipCompress g.gzBuf,
      committed := g.committed, finalStatus := some g.status, closeCount := 1 }
  else
    { headers := g.headers, sink := g.sink, committed := g.committed,
      finalStatus := some g.status, closeCount := 0 }

/-- Embedding of handler.ServeHTTP, src/gzip/gzip.go lines 108 to 160: three
eligibility gates, codec construction, the wrapped downstream call, and the
deferred finalizer. -/
def ServeHTTP (h : handler) (respHeaders : Headers) (req : Request)
    (detect : List Nat → String) (next : List Ev) : ServeResult :=
  if strContains (headerGet req.header headerAcceptEncoding) encodingGzip = false then
    runRaw next respHeaders [] []
  else if 0 < (headerGet req.header headerSecWebSocketKey).length then
    runRaw next respHeaders [] []
  else if headerGet respHeaders headerContentEncoding = encodingGzip then
    runRaw next respHeaders [] []
  else if validGzipLevel h.compressionLevel = false then
    runRaw next respHeaders [] []
  else
    finalize (run (mkCtx h detect req) next (initGrw respHeaders))

end GzipA

namespace GzipB

/-- Embedding of gzipResponseWriter.WriteHeader, src/unnamed/part_001 lines
52 to 68: decide once while undecided (on an allowed decision delete
Content-Length, set Content-Encoding, set Vary; on refusal change nothing),
then always forward the status code to the underlying writer. -/
def WriteHeader (ctx : Ctx) (g : Grw) (code : Nat) : Grw :=
  let g1 :=
    if g.status = Status.COMPRESSION_UNDEFINED then
      if allowed ctx g then
        { g with
          status := Status.COMPRESSION_ENABLED,
          headers := headerSet (headerSet (headerDel g.headers headerContentLength)
            headerContentEncoding encodingGzip) headerVary headerAcceptEncoding,
          predCalls := g.predCalls + predCost ctx }
      else
        { g with
          status := Status.COMPRESSION_DISABLED,
          predCalls := g.predCalls + predCost ctx }
    else g
  { g1 with committed := g1.committed ++ [code] }

/-- Embedding of gzipResponseWriter.Write, src/unnamed/part_001 lines 73 to
88: while still undecided, sniff the content type from the chunk when none
is set and force the transition through WriteHeader with status 200, then
route the chunk by the decided status. -/
def Write (ctx : Ctx) (g : Grw) (b : List Nat) : Grw :=
  let g1 :=
    if g.status = Status.COMPRESSION_UNDEFINED then WriteHeader ctx (sniffCT ctx g b) 200
    else g
  route g1 b

/-- One downstream action against the WriteHeader variant writer. -/
def step (ctx : Ctx) (g : Grw) : Ev → Grw
  | Ev.write b => Write ctx g b
  | Ev.writeHeader code => WriteHeader ctx g code
  | Ev.setHeader k v => { g with headers := headerSet g.headers k v }
  | Ev.delHeader k => { g with headers := headerDel g.headers k }

/-- Downstream handler script run against the wrapper. -/
def run (ctx : Ctx) : List Ev → Grw → Grw
  | [], g => g
  | e :: es, g => run ctx es (step ctx g e)

/-- Deferred finalizer of handler.ServeHTTP in src/unnamed/part_001 lines
155 to 161: when compression ended up enabled, close the gzip writer,
emitting the framed stream; otherwise do nothing. -/
def finalize (g : Grw) : ServeResult :=
  if g.status = Status.COMPRESSION_ENABLED then
    { headers := g.headers, sink := g.sink ++ gzipCompress g.gzBuf,
      committed := g.committed, finalStatus := some g.status, closeCount := 1 }
  else
    { headers := g.headers, sink := g.sink, committed := g.committed,
      finalStatus := some g.status, closeCount := 0 }

/-- Embedding of handler.ServeHTTP, src/unnamed/part_001 lines 117 to 166:
three eligibility gates, codec construction, the wrapped downstream call,
and the deferred finalizer. -/
def ServeHTTP (h : handler) (respHeaders : Headers) (req : Request)
    (detect : List Nat → String) (next : List Ev) : ServeResult :=
  if strContains (headerGet req.header headerAcceptEncoding) encodingGzip = false then
    runRaw next respHeaders [] []
  else if 0 < (headerGet req.header headerSecWebSocketKey).length then
    runRaw next respHeaders [] []
  else if headerGet respHeaders headerContentEncoding = encodingGzip then
    runRaw next respHeaders [] []
  else if validGzipLevel h.compressionLevel = false then
    runRaw next respHeaders [] []
  else
    finalize (run (mkCtx h detect req) next (initGrw respHeaders))

end GzipB

/-- Concrete request carrying the gzip acceptance token, for witnesses. -/
def reqGz : Request := { header := [(headerAcceptEncoding, "gzip")] }

/-- Concrete request without the gzip acceptance token, for witnesses. -/
def reqNone : Request := { header := [] }

/-- Concrete content type detector, for witnesses. -/
def detect0 : List Nat → String := fun _ => "text/plain"

/-- Concrete context: no callback, constant detector, gzip accepting request. -/
def ctx0 : Ctx := { allowCompression := none, detect := detect0, req := reqGz }

/-! Basic lemmas about the header map model. -/

theorem headerGet_set_self (h : Headers) (k v : String) :
    headerGet (headerSet h k v) k = v := by
  simp [headerGet, headerSet, List.find?_cons]

theorem headerDel_find?_ne (h : Headers) (k k' : String) (hne : k' ≠ k) :
    List.find? (fun p => p.1 == k') (headerDel h k)
      = List.find? (fun p => p.1 == k') h := by
  induction h with
  | nil => rfl
  | cons a as ih =>
    by_cases hk : a.1 = k
    · have hfa : (!(a.1 == k)) = false := by simp [hk]
      have hk' : (a.1 == k') = false := by
        simp only [beq_eq_false_iff_ne]
        rw [hk]
        exact Ne.symm hne
      simp only [headerDel, List.filter_cons, hfa, Bool.false_eq_true, if_false,
        List.find?_cons, hk']
      exact ih
    · have hfa : (!(a.1 == k)) = true := by simp [hk]
      simp only [headerDel, List.filter_cons, hfa, if_true]
      cases hbk : (a.1 == k') with
      | true => simp only [List.find?_cons, hbk]
      | false =>
        simp only [List.find?_cons, hbk]
        exact ih

theorem headerGet_del_ne (h : Headers) (k k' : String) (hne : k' ≠ k) :
    headerGet (headerDel h k) k' = headerGet h k' := by
  unfold headerGet
  rw [headerDel_find?_ne h k k' hne]

theorem headerGet_set_ne (h : Headers) (k v k' : String) (hne : k' ≠ k) :
    headerGet (headerSet h k v) k' = headerGet h k' := by
  have h1 : ((k, v).1 == k') = false := by
    simp only [beq_eq_false_iff_ne]
    exact Ne.symm hne
  unfold headerSet headerGet
  simp only [List.find?, h1]
  rw [headerDel_find?_ne h k k' hne]

theorem headerGet_del_self (h : Headers) (k : String) :
    headerGet (headerDel h k) k = "" := by
  have hnone : List.find? (fun p => p.1 == k) (headerDel h k) = none := by
    rw [List.find?_eq_none]
    intro x hx
    have hmem := List.mem_filter.mp hx
    simp only [Bool.not_eq_eq_eq_not, Bool.not_true, beq_eq_false_iff_ne] at hmem
    simp only [beq_iff_eq]
    exact hmem.2
  unfold headerGet
  rw [hnone]

theorem filter_headerSet_self (h : Headers) (k v : String) :
    List.filter (fun p => p.1 == k) (headerSet h k v) = [(k, v)] := by
  unfold headerSet headerDel
  rw [List.filter_cons]
  simp only [beq_self_eq_true, if_true]
  rw [List.filter_filter]
  simp

/-! Lemmas about the passthrough run. -/

theorem runRaw_finalStatus (evs : List Ev) :
    ∀ h s c, (runRaw evs h s c).finalStatus = none := by
  induction evs with
  | nil => intro h s c; rfl
  | cons e es ih =>
    intro h s c
    cases e with
    | write b => simpa [runRaw] using ih h (s ++ b) c
    | writeHeader code => simpa [runRaw] using ih h s (c ++ [code])
    | setHeader k v => simpa [runRaw] using ih (headerSet h k v) s c
    | delHeader k => simpa [runRaw] using ih (headerDel h k) s c

theorem runRaw_closeCount (evs : List Ev) :
    ∀ h s c, (runRaw evs h s c).closeCount = 0 := by
  induction evs with
  | nil => intro h s c; rfl
  | cons e es ih =>
    intro h s c
    cases e with
    | write b => simpa [runRaw] using ih h (s ++ b) c
    | writeHeader code => simpa [runRaw] using ih h s (c ++ [code])
    | setHeader k v => simpa [runRaw] using ih (headerSet h k v) s c
    | delHeader k => simpa [runRaw] using ih (headerDel h k) s c

theorem runRaw_sink (evs : List Ev) :
    ∀ h s c, (runRaw evs h s c).sink = s ++ writesOf evs := by
  induction evs with
  | nil => intro h s c; simp [runRaw, writesOf]
  | cons e es ih =>
    intro h s c
    cases e with
    | write b =>
      rw [runRaw, ih h (s ++ b) c]
      simp [writesOf]
    | writeHeader code => rw [runRaw, ih h s (c ++ [code])]; rfl
    | setHeader k v => rw [runRaw, ih (headerSet h k v) s c]; rfl
    | delHeader k => rw [runRaw, ih (headerDel h k) s c]; rfl

/-! Lemmas about the shared sniffing and routing steps. -/

theorem sniffCT_status (ctx : Ctx) (g : Grw) (b : List Nat) :
    (sniffCT ctx g b).status = g.status := by
  unfold sniffCT; split <;> rfl

theorem sniffCT_sink (ctx : Ctx) (g : Grw) (b : List Nat) :
    (sniffCT ctx g b).sink = g.sink := by
  unfold sniffCT; split <;> rfl

theorem sniffCT_gzBuf (ctx : Ctx) (g : Grw) (b : List Nat) :
    (sniffCT ctx g b).gzBuf = g.gzBuf := by
  unfold sniffCT; split <;> rfl

theorem sniffCT_committed (ctx : Ctx) (g : Grw) (b : List Nat) :
    (sniffCT ctx g b).committed = g.committed := by
  unfold sniffCT; split <;> rfl

theorem sniffCT_predCalls (ctx : Ctx) (g : Grw) (b : List Nat) :
    (sniffCT ctx g b).predCalls = g.predCalls := by
  unfold sniffCT; split <;> rfl

theorem sniffCT_of_empty (ctx : Ctx) (g : Grw) (b : List Nat)
    (hct : headerGet g.headers headerContentType = "") :
    sniffCT ctx g b
      = { g with headers := headerSet g.headers headerContentType (ctx.detect b) } := by
  unfold sniffCT
  rw [if_pos]
  rw [hct]
  rfl

theorem route_status (g : Grw) (b : List Nat) : (route g b).status = g.status := by
  unfold route; split <;> rfl

theorem route_headers (g : Grw) (b : List Nat) : (route g b).headers = g.headers := by
  unfold route; split <;> rfl

theorem route_committed (g : Grw) (b : List Nat) : (route g b).committed = g.committed := by
  unfold route; split <;> rfl

theorem route_predCalls (g : Grw) (b : List Nat) : (route g b).predCalls = g.predCalls := by
  unfold route; split <;> rfl

theorem route_enabled (g : Grw) (b : List Nat)
    (h : g.status = Status.COMPRESSION_ENABLED) :
    route g b = { g with gzBuf := g.gzBuf ++ b } := by
  unfold route; rw [if_pos h]

theorem route_not_enabled (g : Grw) (b : List Nat)
    (h : g.status ≠ Status.COMPRESSION_ENABLED) :
    route g b = { g with sink := g.sink ++ b } := by
  unfold route; rw [if_neg h]

/-! Lemmas about the WriteHeader variant writer (GzipB). -/

theorem route_routes (g0 g : Grw) (b : List Nat)
    (hgz : g.gzBuf = g0.gzBuf) (hsk : g.sink = g0.sink) :
    ((route g b).status = Status.COMPRESSION_ENABLED →
      (route g b).gzBuf = g0.gzBuf ++ b ∧ (route g b).sink = g0.sink) ∧
    ((route g b).status ≠ Status.COMPRESSION_ENABLED →
      (route g b).sink = g0.sink ++ b ∧ (route g b).gzBuf = g0.gzBuf) := by
  unfold route
  by_cases h : g.status = Status.COMPRESSION_ENABLED
  · rw [if_pos h]
    constructor
    · intro _
      constructor
      · show g.gzBuf ++ b = g0.gzBuf ++ b
        rw [hgz]
      · exact hsk
    · intro hc
      exact absurd h hc
  · rw [if_neg h]
    constructor
    · intro hc
      exact absurd hc h
    · intro _
      constructor
      · show g.sink ++ b = g0.sink ++ b
        rw [hsk]
      · exact hgz

namespace GzipB

theorem writeHeader_decided (ctx : Ctx) (g : Grw) (c : Nat)
    (h : g.status ≠ Status.COMPRESSION_UNDEFINED) :
    WriteHeader ctx g c = { g with committed := g.committed ++ [c] } := by
  simp only [WriteHeader]
  rw [if_neg h]

theorem writeHeader_undecided_allowed (ctx : Ctx) (g : Grw) (c : Nat)
    (h : g.status = Status.COMPRESSION_UNDEFINED) (ha : allowed ctx g = true) :
    WriteHeader ctx g c =
      { g with
        status := Status.COMPRESSION_ENABLED,
        headers := headerSet (headerSet (headerDel g.headers headerContentLength)
          headerContentEncoding encodingGzip) headerVary headerAcceptEncoding,
        predCalls := g.predCalls + predCost ctx,
        committed := g.committed ++ [c] } := by
  simp only [WriteHeader, h, ha]
  rfl

theorem writeHeader_undecided_refused (ctx : Ctx) (g : Grw) (c : Nat)
    (h : g.status = Status.COMPRESSION_UNDEFINED) (ha : allowed ctx g = false) :
    WriteHeader ctx g c =
      { g with
        status := Status.COMPRESSION_DISABLED,
        predCalls := g.predCalls + predCost ctx,
        committed := g.committed ++ [c] } := by
  simp only [WriteHeader, h, ha]
  rfl

theorem writeHeader_status_ne (ctx : Ctx) (g : Grw) (c : Nat) :
    (WriteHeader ctx g c).status ≠ Status.COMPRESSION_UNDEFINED := by
  by_cases h : g.status = Status.COMPRESSION_UNDEFINED
  · cases hab : allowed ctx g with
    | true => rw [writeHeader_undecided_allowed ctx g c h hab]; simp
    | false => rw [writeHeader_undecided_refused ctx g c h hab]; simp
  · rw [writeHeader_decided ctx g c h]
    exact h

theorem writeHeader_sink (ctx : Ctx) (g : Grw) (c : Nat) :
    (WriteHeader ctx g c).sink = g.sink := by
  simp only [WriteHeader]
  split
  · split <;> rfl
  · rfl

theorem writeHeader_gzBuf (ctx : Ctx) (g : Grw) (c : Nat) :
    (WriteHeader ctx g c).gzBuf = g.gzBuf := by
  simp only [WriteHeader]
  split
  · split <;> rfl
  · rfl

theorem write_decided (ctx : Ctx) (g : Grw) (b : List Nat)
    (h : g.status ≠ Status.COMPRESSION_UNDEFINED) :
    Write ctx g b = route g b := by
  simp only [Write]
  rw [if_neg h]

theorem write_undecided (ctx : Ctx) (g : Grw) (b : List Nat)
    (h : g.status = Status.COMPRESSION_UNDEFINED) :
    Write ctx g b = route (WriteHeader ctx (sniffCT ctx g b) 200) b := by
  simp only [Write]
  rw [if_pos h]

theorem write_status_neB (ctx : Ctx) (g : Grw) (b : List Nat) :
    (Write ctx g b).status ≠ Status.COMPRESSION_UNDEFINED := by
  by_cases h : g.status = Status.COMPRESSION_UNDEFINED
  · rw [write_undecided ctx g b h, route_status]
    exact writeHeader_status_ne ctx (sniffCT ctx g b) 200
  · rw [write_decided ctx g b h, route_status]
    exact h

theorem write_routesB (ctx : Ctx) (g : Grw) (b : List Nat) :
    ((Write ctx g b).status = Status.COMPRESSION_ENABLED →
      (Write ctx g b).gzBuf = g.gzBuf ++ b ∧ (Write ctx g b).sink = g.sink) ∧
    ((Write ctx g b).status ≠ Status.COMPRESSION_ENABLED →
      (Write ctx g b).sink = g.sink ++ b ∧ (Write ctx g b).gzBuf = g.gzBuf) := by
  by_cases h : g.status = Status.COMPRESSION_UNDEFINED
  · rw [write_undecided ctx g b h]
    exact route_routes g _ b
      (by rw [writeHeader_gzBuf, sniffCT_gzBuf])
      (by rw [writeHeader_sink, sniffCT_sink])
  · rw [write_decided ctx g b h]
    exact route_routes g g b rfl rfl

theorem step_status_decidedB (ctx : Ctx) (g : Grw) (e : Ev)
    (h : g.status ≠ Status.COMPRESSION_UNDEFINED) :
    (step ctx g e).status = g.status := by
  cases e with
  | write b =>
    show (Write ctx g b).status = g.status
    rw [write_decided ctx g b h, route_status]
  | writeHeader c =>
    show (WriteHeader ctx g c).status = g.status
    rw [writeHeader_decided ctx g c h]
  | setHeader k v => rfl
  | delHeader k => rfl

theorem run_status_decidedB (ctx : Ctx) (evs : List Ev) :
    ∀ g : Grw, g.status ≠ Status.COMPRESSION_UNDEFINED →
      (run ctx evs g).status = g.status := by
  induction evs with
  | nil => intro g h; rfl
  | cons e es ih =>
    intro g h
    show (run ctx es (step ctx g e)).status = g.status
    rw [ih (step ctx g e) (by rw [step_status_decidedB ctx g e h]; exact h),
      step_status_decidedB ctx g e h]

theorem run_routesB (ctx : Ctx) (evs : List Ev) : ∀ g : Grw,
    ((run ctx evs g).status = Status.COMPRESSION_ENABLED →
      (run ctx evs g).gzBuf = g.gzBuf ++ writesOf evs ∧
      (run ctx evs g).sink = g.sink) ∧
    ((run ctx evs g).status ≠ Status.COMPRESSION_ENABLED →
      (run ctx evs g).sink = g.sink ++ writesOf evs ∧
      (run ctx evs g).gzBuf = g.gzBuf) := by
  induction evs with
  | nil =>
    intro g
    constructor
    · intro _
      exact ⟨by simp [run, writesOf], rfl⟩
    · intro _
      exact ⟨by simp [run, writesOf], rfl⟩
  | cons e es ih =>
    intro g
    cases e with
    | write b =>
      have hW := write_routesB ctx g b
      have hne := write_status_neB ctx g b
      have hterm := run_status_decidedB ctx es (Write ctx g b) hne
      cases hst : (Write ctx g b).status with
      | COMPRESSION_UNDEFINED => exact absurd hst hne
      | COMPRESSION_ENABLED =>
        have hfin : (run ctx es (Write ctx g b)).status = Status.COMPRESSION_ENABLED := by
          rw [hterm, hst]
        have hgot := (ih (Write ctx g b)).1 hfin
        have hwr := hW.1 hst
        constructor
        · intro _
          refine ⟨?_, ?_⟩
          · show (run ctx es (Write ctx g b)).gzBuf = g.gzBuf ++ writesOf (Ev.write b :: es)
            rw [hgot.1, hwr.1, writesOf, List.append_assoc]
          · show (run ctx es (Write ctx g b)).sink = g.sink
            rw [hgot.2, hwr.2]
        · intro hc
          have hc2 : (run ctx es (Write ctx g b)).status ≠ Status.COMPRESSION_ENABLED := hc
          exact absurd hfin hc2
      | COMPRESSION_DISABLED =>
        have hnen : (run ctx es (Write ctx g b)).status ≠ Status.COMPRESSION_ENABLED := by
          rw [hterm, hst]
          simp
        have hgot := (ih (Write ctx g b)).2 hnen
        have hwr := hW.2 (by rw [hst]; simp)
        constructor
        · intro hc
          have hc2 : (run ctx es (Write ctx g b)).status = Status.COMPRESSION_ENABLED := hc
          exact absurd hc2 hnen
        · intro _
          refine ⟨?_, ?_⟩
          · show (run ctx es (Write ctx g b)).sink = g.sink ++ writesOf (Ev.write b :: es)
            rw [hgot.1, hwr.1, writesOf, List.append_assoc]
          · show (run ctx es (Write ctx g b)).gzBuf = g.gzBuf
            rw [hgot.2, hwr.2]
    | writeHeader c =>
      have hsk := writeHeader_sink ctx g c
      have hgz := writeHeader_gzBuf ctx g c
      constructor
      · intro he
        have he2 : (run ctx es (WriteHeader ctx g c)).status
            = Status.COMPRESSION_ENABLED := he
        have hgot := (ih (WriteHeader ctx g c)).1 he2
        refine ⟨?_, ?_⟩
        · show (run ctx es (WriteHeader ctx g c)).gzBuf
            = g.gzBuf ++ writesOf (Ev.writeHeader c :: es)
          rw [hgot.1, hgz, writesOf]
        · show (run ctx es (WriteHeader ctx g c)).sink = g.sink
          rw [hgot.2, hsk]
      · intro he
        have he2 : (run ctx es (WriteHeader ctx g c)).status
            ≠ Status.COMPRESSION_ENABLED := he
        have hgot := (ih (WriteHeader ctx g c)).2 he2
        refine ⟨?_, ?_⟩
        · show (run ctx es (WriteHeader ctx g c)).sink
            = g.sink ++ writesOf (Ev.writeHeader c :: es)
          rw [hgot.1, hsk, writesOf]
        · show (run ctx es (WriteHeader ctx g c)).gzBuf = g.gzBuf
          rw [hgot.2, hgz]
    | setHeader k v =>
      constructor
      · intro he
        have he2 : (run ctx es { g with headers := headerSet g.headers k v }).status
            = Status.COMPRESSION_ENABLED := he
        have hgot := (ih { g with headers := headerSet g.headers k v }).1 he2
        refine ⟨?_, ?_⟩
        · show (run ctx es { g with headers := headerSet g.headers k v }).gzBuf
            = g.gzBuf ++ writesOf (Ev.setHeader k v :: es)
          rw [hgot.1, writesOf]
        · show (run ctx es { g with headers := headerSet g.headers k v }).sink = g.sink
          rw [hgot.2]
      · intro he
        have he2 : (run ctx es { g with headers := headerSet g.headers k v }).status
            ≠ Status.COMPRESSION_ENABLED := he
        have hgot := (ih { g with headers := headerSet g.headers k v }).2 he2
        refine ⟨?_, ?_⟩
        · show (run ctx es { g with headers := headerSet g.headers k v }).sink
            = g.sink ++ writesOf (Ev.setHeader k v :: es)
          rw [hgot.1, writesOf]
        · show (run ctx es { g with headers := headerSet g.headers k v }).gzBuf = g.gzBuf
          rw [hgot.2]
    | delHeader k =>
      constructor
      · intro he
        have he2 : (run ctx es { g with headers := headerDel g.headers k }).status
            = Status.COMPRESSION_ENABLED := he
        have hgot := (ih { g with headers := headerDel g.headers k }).1 he2
        refine ⟨?_, ?_⟩
        · show (run ctx es { g with headers := headerDel g.headers k }).gzBuf
            = g.gzBuf ++ writesOf (Ev.delHeader k :: es)
          rw [hgot.1, writesOf]
        · show (run ctx es { g with headers := headerDel g.headers k }).sink = g.sink
          rw [hgot.2]
      · intro he
        have he2 : (run ctx es { g with headers := headerDel g.headers k }).status
            ≠ Status.COMPRESSION_ENABLED := he
        have hgot := (ih { g with headers := headerDel g.headers k }).2 he2
        refine ⟨?_, ?_⟩
        · show (run ctx es { g with headers := headerDel g.headers k }).sink
            = g.sink ++ writesOf (Ev.delHeader k :: es)
          rw [hgot.1, writesOf]
        · show (run ctx es { g with headers := headerDel g.headers k }).gzBuf = g.gzBuf
          rw [hgot.2]

end GzipB

/-! Lemmas about the compressContent variant writer (GzipA). -/

namespace GzipA

theorem compressContent_decided (ctx : Ctx) (g : Grw)
    (h : g.status ≠ Status.COMPRESSION_UNDEFINED) :
    compressContent ctx g = (g, decide (g.status = Status.COMPRESSION_ENABLED)) := by
  simp only [compressContent]
  rw [if_neg h]

theorem compressContent_undecided_allowed (ctx : Ctx) (g : Grw)
    (h : g.status = Status.COMPRESSION_UNDEFINED) (ha : allowed ctx g = true) :
    compressContent ctx g =
      ({ g with
        status := Status.COMPRESSION_ENABLED,
        headers := headerSet (headerSet g.headers headerContentEncoding encodingGzip)
          headerVary headerAcceptEncoding,
        predCalls := g.predCalls + predCost ctx }, true) := by
  simp only [compressContent, h, ha]
  rfl

theorem compressContent_undecided_refused (ctx : Ctx) (g : Grw)
    (h : g.status = Status.COMPRESSION_UNDEFINED) (ha : allowed ctx g = false) :
    compressContent ctx g =
      ({ g with
        status := Status.COMPRESSION_DISABLED,
        predCalls := g.predCalls + predCost ctx }, false) := by
  simp only [compressContent, h, ha]
  rfl

theorem compressContent_snd (ctx : Ctx) (g : Grw) :
    (compressContent ctx g).2
      = decide ((compressContent ctx g).1.status = Status.COMPRESSION_ENABLED) := by
  simp only [compressContent]

theorem compressContent_status_ne (ctx : Ctx) (g : Grw) :
    (compressContent ctx g).1.status ≠ Status.COMPRESSION_UNDEFINED := by
  by_cases h : g.status = Status.COMPRESSION_UNDEFINED
  · cases hab : allowed ctx g with
    | true => rw [compressContent_undecided_allowed ctx g h hab]; simp
    | false => rw [compressContent_undecided_refused ctx g h hab]; simp
  · rw [compressContent_decided ctx g h]
    exact h

theorem compressContent_sink (ctx : Ctx) (g : Grw) :
    (compressContent ctx g).1.sink = g.sink := by
  simp only [compressContent]
  split
  · split <;> rfl
  · rfl

theorem compressContent_gzBuf (ctx : Ctx) (g : Grw) :
    (compressContent ctx g).1.gzBuf = g.gzBuf := by
  simp only [compressContent]
  split
  · split <;> rfl
  · rfl

theorem write_eq (ctx : Ctx) (g : Grw) (b : List Nat) :
    Write ctx g b = route (compressContent ctx (sniffCT ctx g b)).1 b := by
  by_cases hp : (compressContent ctx (sniffCT ctx g b)).1.status
      = Status.COMPRESSION_ENABLED
  · have h2 : (compressContent ctx (sniffCT ctx g b)).2 = true := by
      rw [compressContent_snd, hp]
      rfl
    simp only [Write]
    rw [if_pos h2, route_enabled _ _ hp]
  · have h2 : ¬ ((compressContent ctx (sniffCT ctx g b)).2 = true) := by
      rw [compressContent_snd]
      simp [hp]
    simp only [Write]
    rw [if_neg h2, route_not_enabled _ _ hp]

theorem write_status_neA (ctx : Ctx) (g : Grw) (b : List Nat) :
    (Write ctx g b).status ≠ Status.COMPRESSION_UNDEFINED := by
  rw [write_eq, route_status]
  exact compressContent_status_ne ctx (sniffCT ctx g b)

theorem write_routesA (ctx : Ctx) (g : Grw) (b : List Nat) :
    ((Write ctx g b).status = Status.COMPRESSION_ENABLED →
      (Write ctx g b).gzBuf = g.gzBuf ++ b ∧ (Write ctx g b).sink = g.sink) ∧
    ((Write ctx g b).status ≠ Status.COMPRESSION_ENABLED →
      (Write ctx g b).sink = g.sink ++ b ∧ (Write ctx g b).gzBuf = g.gzBuf) := by
  rw [write_eq]
  exact route_routes g _ b
    (by rw [compressContent_gzBuf, sniffCT_gzBuf])
    (by rw [compressContent_sink, sniffCT_sink])

theorem step_status_decidedA (ctx : Ctx) (g : Grw) (e : Ev)
    (h : g.status ≠ Status.COMPRESSION_UNDEFINED) :
    (step ctx g e).status = g.status := by
  cases e with
  | write b =>
    show (Write ctx g b).status = g.status
    rw [write_eq, route_status,
      compressContent_decided ctx _ (by rw [sniffCT_status]; exact h),
      sniffCT_status]
  | writeHeader c => rfl
  | setHeader k v => rfl
  | delHeader k => rfl

theorem run_status_decidedA (ctx : Ctx) (evs : List Ev) :
    ∀ g : Grw, g.status ≠ Status.COMPRESSION_UNDEFINED →
      (run ctx evs g).status = g.status := by
  induction evs with
  | nil => intro g h; rfl
  | cons e es ih =>
    intro g h
    show (run ctx es (step ctx g e)).status = g.status
    rw [ih (step ctx g e) (by rw [step_status_decidedA ctx g e h]; exact h),
      step_status_decidedA ctx g e h]

theorem run_routesA (ctx : Ctx) (evs : List Ev) : ∀ g : Grw,
    ((run ctx evs g).status = Status.COMPRESSION_ENABLED →
      (run ctx evs g).gzBuf = g.gzBuf ++ writesOf evs ∧
      (run ctx evs g).sink = g.sink) ∧
    ((run ctx evs g).status ≠ Status.COMPRESSION_ENABLED →
      (run ctx evs g).sink = g.sink ++ writesOf evs ∧
      (run ctx evs g).gzBuf = g.gzBuf) := by
  induction evs with
  | nil =>
    intro g
    constructor
    · intro _
      exact ⟨by simp [run, writesOf], rfl⟩
    · intro _
      exact ⟨by simp [run, writesOf], rfl⟩
  | cons e es ih =>
    intro g
    cases e with
    | write b =>
      have hW := write_routesA ctx g b
      have hne := write_status_neA ctx g b
      have hterm := run_status_decidedA ctx es (Write ctx g b) hne
      cases hst : (Write ctx g b).status with
      | COMPRESSION_UNDEFINED => exact absurd hst hne
      | COMPRESSION_ENABLED =>
        have hfin : (run ctx es (Write ctx g b)).status = Status.COMPRESSION_ENABLED := by
          rw [hterm, hst]
        have hgot := (ih (Write ctx g b)).1 hfin
        have hwr := hW.1 hst
        constructor
        · intro _
          refine ⟨?_, ?_⟩
          · show (run ctx es (Write ctx g b)).gzBuf = g.gzBuf ++ writesOf (Ev.write b :: es)
            rw [hgot.1, hwr.1, writesOf, List.append_assoc]
          · show (run ctx es (Write ctx g b)).sink = g.sink
            rw [hgot.2, hwr.2]
        · intro hc
          have hc2 : (run ctx es (Write ctx g b)).status ≠ Status.COMPRESSION_ENABLED := hc
          exact absurd hfin hc2
      | COMPRESSION_DISABLED =>
        have hnen : (run ctx es (Write ctx g b)).status ≠ Status.COMPRESSION_ENABLED := by
          rw [hterm, hst]
          simp
        have hgot := (ih (Write ctx g b)).2 hnen
        have hwr := hW.2 (by rw [hst]; simp)
        constructor
        · intro hc
          have hc2 : (run ctx es (Write ctx g b)).status = Status.COMPRESSION_ENABLED := hc
          exact absurd hc2 hnen
        · intro _
          refine ⟨?_, ?_⟩
          · show (run ctx es (Write ctx g b)).sink = g.sink ++ writesOf (Ev.write b :: es)
            rw [hgot.1, hwr.1, writesOf, List.append_assoc]
          · show (run ctx es (Write ctx g b)).gzBuf = g.gzBuf
            rw [hgot.2, hwr.2]
    | writeHeader c =>
      constructor
      · intro he
        have he2 : (run ctx es { g with committed := g.committed ++ [c] }).status
            = Status.COMPRESSION_ENABLED := he
        have hgot := (ih { g with committed := g.committed ++ [c] }).1 he2
        refine ⟨?_, ?_⟩
        · show (run ctx es { g with committed := g.committed ++ [c] }).gzBuf
            = g.gzBuf ++ writesOf (Ev.writeHeader c :: es)
          rw [hgot.1, writesOf]
        · show (run ctx es { g with committed := g.committed ++ [c] }).sink = g.sink
          rw [hgot.2]
      · intro he
        have he2 : (run ctx es { g with committed := g.committed ++ [c] }).status
            ≠ Status.COMPRESSION_ENABLED := he
        have hgot := (ih { g with committed := g.committed ++ [c] }).2 he2
        refine ⟨?_, ?_⟩
        · show (run ctx es { g with committed := g.committed ++ [c] }).sink
            = g.sink ++ writesOf (Ev.writeHeader c :: es)
          rw [hgot.1, writesOf]
        · show (run ctx es { g with committed := g.committed ++ [c] }).gzBuf = g.gzBuf
          rw [hgot.2]
    | setHeader k v =>
      constructor
      · intro he
        have he2 : (run ctx es { g with headers := headerSet g.headers k v }).status
            = Status.COMPRESSION_ENABLED := he
        have hgot := (ih { g with headers := headerSet g.headers k v }).1 he2
        refine ⟨?_, ?_⟩
        · show (run ctx es { g with headers := headerSet g.headers k v }).gzBuf
            = g.gzBuf ++ writesOf (Ev.setHeader k v :: es)
          rw [hgot.1, writesOf]
        · show (run ctx es { g with headers := headerSet g.headers k v }).sink = g.sink
          rw [hgot.2]
      · intro he
        have he2 : (run ctx es { g with headers := headerSet g.headers k v }).status
            ≠ Status.COMPRESSION_ENABLED := he
        have hgot := (ih { g with headers := headerSet g.headers k v }).2 he2
        refine ⟨?_, ?_⟩
        · show (run ctx es { g with headers := headerSet g.headers k v }).sink
            = g.sink ++ writesOf (Ev.setHeader k v :: es)
          rw [hgot.1, writesOf]
        · show (run ctx es { g with headers := headerSet g.headers k v }).gzBuf = g.gzBuf
          rw [hgot.2]
    | delHeader k =>
      constructor
      · intro he
        have he2 : (run ctx es { g with headers := headerDel g.headers k }).status
            = Status.COMPRESSION_ENABLED := he
        have hgot := (ih { g with headers := headerDel g.headers k }).1 he2
        refine ⟨?_, ?_⟩
        · show (run ctx es { g with headers := headerDel g.headers k }).gzBuf
            = g.gzBuf ++ writesOf (Ev.delHeader k :: es)
          rw [hgot.1, writesOf]
        · show (run ctx es { g with headers := headerDel g.headers k }).sink = g.sink
          rw [hgot.2]
      · intro he
        have he2 : (run ctx es { g with headers := headerDel g.headers k }).status
            ≠ Status.COMPRESSION_ENABLED := he
        have hgot := (ih { g with headers := headerDel g.headers k }).2 he2
        refine ⟨?_, ?_⟩
        · show (run ctx es { g with headers := headerDel g.headers k }).sink
            = g.sink ++ writesOf (Ev.delHeader k :: es)
          rw [hgot.1, writesOf]
        · show (run ctx es { g with headers := headerDel g.headers k }).gzBuf = g.gzBuf
          rw [hgot.2]

end GzipA

/-! Accounting of allowCompression evaluations. -/

theorem predBudget_congr (ctx : Ctx) (g1 g2 : Grw) (h : g1.status = g2.status) :
    predBudget ctx g1 = predBudget ctx g2 := by
  unfold predBudget
  rw [h]

theorem predCost_le_one (ctx : Ctx) : predCost ctx ≤ 1 := by
  unfold predCost
  cases ctx.allowCompression <;> simp

namespace GzipB

theorem writeHeader_predSum (ctx : Ctx) (g : Grw) (c : Nat) :
    (WriteHeader ctx g c).predCalls + predBudget ctx (WriteHeader ctx g c)
      = g.predCalls + predBudget ctx g := by
  by_cases h : g.status = Status.COMPRESSION_UNDEFINED
  · cases hab : allowed ctx g with
    | true =>
      rw [writeHeader_undecided_allowed ctx g c h hab]
      simp [predBudget, h]
    | false =>
      rw [writeHeader_undecided_refused ctx g c h hab]
      simp [predBudget, h]
  · rw [writeHeader_decided ctx g c h]
    rfl

theorem write_predSumB (ctx : Ctx) (g : Grw) (b : List Nat) :
    (Write ctx g b).predCalls + predBudget ctx (Write ctx g b)
      = g.predCalls + predBudget ctx g := by
  by_cases h : g.status = Status.COMPRESSION_UNDEFINED
  · rw [write_undecided ctx g b h, route_predCalls,
      predBudget_congr ctx _ _ (route_status _ _), writeHeader_predSum,
      sniffCT_predCalls, predBudget_congr ctx _ _ (sniffCT_status ctx g b)]
  · rw [write_decided ctx g b h, route_predCalls,
      predBudget_congr ctx _ _ (route_status _ _)]

theorem step_predSumB (ctx : Ctx) (g : Grw) (e : Ev) :
    (step ctx g e).predCalls + predBudget ctx (step ctx g e)
      = g.predCalls + predBudget ctx g := by
  cases e with
  | write b => exact write_predSumB ctx g b
  | writeHeader c => exact writeHeader_predSum ctx g c
  | setHeader k v => rfl
  | delHeader k => rfl

theorem run_predSumB (ctx : Ctx) (evs : List Ev) :
    ∀ g : Grw, (run ctx evs g).predCalls + predBudget ctx (run ctx evs g)
      = g.predCalls + predBudget ctx g := by
  induction evs with
  | nil => intro g; rfl
  | cons e es ih =>
    intro g
    have h1 : run ctx (e :: es) g = run ctx es (step ctx g e) := rfl
    rw [h1, ih (step ctx g e), step_predSumB ctx g e]

theorem run_predCalls_le_oneB (ctx : Ctx) (evs : List Ev) (hdrs : Headers) :
    (run ctx evs (initGrw hdrs)).predCalls ≤ 1 := by
  have hsum := run_predSumB ctx evs (initGrw hdrs)
  have hinit : (initGrw hdrs).predCalls + predBudget ctx (initGrw hdrs) = predCost ctx := by
    simp [initGrw, predBudget]
  calc (run ctx evs (initGrw hdrs)).predCalls
      ≤ (run ctx evs (initGrw hdrs)).predCalls
          + predBudget ctx (run ctx evs (initGrw hdrs)) := Nat.le_add_right _ _
    _ = (initGrw hdrs).predCalls + predBudget ctx (initGrw hdrs) := hsum
    _ = predCost ctx := hinit
    _ ≤ 1 := predCost_le_one ctx

end GzipB

namespace GzipA

theorem compressContent_predSum (ctx : Ctx) (g : Grw) :
    (compressContent ctx g).1.predCalls + predBudget ctx (compressContent ctx g).1
      = g.predCalls + predBudget ctx g := by
  by_cases h : g.status = Status.COMPRESSION_UNDEFINED
  · cases hab : allowed ctx g with
    | true =>
      rw [compressContent_undecided_allowed ctx g h hab]
      simp [predBudget, h]
    | false =>
      rw [compressContent_undecided_refused ctx g h hab]
      simp [predBudget, h]
  · rw [compressContent_decided ctx g h]

theorem write_predSumA (ctx : Ctx) (g : Grw) (b : List Nat) :
    (Write ctx g b).predCalls + predBudget ctx (Write ctx g b)
      = g.predCalls + predBudget ctx g := by
  rw [write_eq, route_predCalls, predBudget_congr ctx _ _ (route_status _ _),
    compressContent_predSum, sniffCT_predCalls,
    predBudget_congr ctx _ _ (sniffCT_status ctx g b)]

theorem step_predSumA (ctx : Ctx) (g : Grw) (e : Ev) :
    (step ctx g e).predCalls + predBudget ctx (step ctx g e)
      = g.predCalls + predBudget ctx g := by
  cases e with
  | write b => exact write_predSumA ctx g b
  | writeHeader c => rfl
  | setHeader k v => rfl
  | delHeader k => rfl

theorem run_predSumA (ctx : Ctx) (evs : List Ev) :
    ∀ g : Grw, (run ctx evs g).predCalls + predBudget ctx (run ctx evs g)
      = g.predCalls + predBudget ctx g := by
  induction evs with
  | nil => intro g; rfl
  | cons e es ih =>
    intro g
    have h1 : run ctx (e :: es) g = run ctx es (step ctx g e) := rfl
    rw [h1, ih (step ctx g e), step_predSumA ctx g e]

theorem run_predCalls_le_oneA (ctx : Ctx) (evs : List Ev) (hdrs : Headers) :
    (run ctx evs (initGrw hdrs)).predCalls ≤ 1 := by
  have hsum := run_predSumA ctx evs (initGrw hdrs)
  have hinit : (initGrw hdrs).predCalls + predBudget ctx (initGrw hdrs) = predCost ctx := by
    simp [initGrw, predBudget]
  calc (run ctx evs (initGrw hdrs)).predCalls
      ≤ (run ctx evs (initGrw hdrs)).predCalls
          + predBudget ctx (run ctx evs (initGrw hdrs)) := Nat.le_add_right _ _
    _ = (initGrw hdrs).predCalls + predBudget ctx (initGrw hdrs) := hsum
    _ = predCost ctx := hinit
    _ ≤ 1 := predCost_le_one ctx

end GzipA

/-! Finalizer and gate lemmas for ServeHTTP, both variants. -/

theorem GzipB.finalize_finalStatusB (g : Grw) :
    (GzipB.finalize g).finalStatus = some g.status := by
  unfold GzipB.finalize
  split <;> rfl

theorem GzipB.finalize_closeCountB (g : Grw) :
    (GzipB.finalize g).closeCount
      = (if g.status = Status.COMPRESSION_ENABLED then 1 else 0) := by
  unfold GzipB.finalize
  by_cases h : g.status = Status.COMPRESSION_ENABLED
  · rw [if_pos h, if_pos h]
  · rw [if_neg h, if_neg h]

theorem GzipB.finalize_enabledB (g : Grw) (h : g.status = Status.COMPRESSION_ENABLED) :
    GzipB.finalize g =
      { headers := g.headers, sink := g.sink ++ gzipCompress g.gzBuf,
        committed := g.committed, finalStatus := some g.status, closeCount := 1 } := by
  unfold GzipB.finalize
  rw [if_pos h]

theorem GzipB.finalize_not_enabledB (g : Grw) (h : ¬ g.status = Status.COMPRESSION_ENABLED) :
    GzipB.finalize g =
      { headers := g.headers, sink := g.sink, committed := g.committed,
        finalStatus := some g.status, closeCount := 0 } := by
  unfold GzipB.finalize
  rw [if_neg h]

theorem GzipA.finalize_finalStatusA (g : Grw) :
    (GzipA.finalize g).finalStatus = some g.status := by
  unfold GzipA.finalize
  split <;> rfl

theorem GzipA.finalize_closeCountA (g : Grw) :
    (GzipA.finalize g).closeCount
      = (if g.status = Status.COMPRESSION_ENABLED then 1 else 0) := by
  unfold GzipA.finalize
  by_cases h : g.status = Status.COMPRESSION_ENABLED
  · rw [if_pos h, if_pos h]
  · rw [if_neg h, if_neg h]

theorem GzipA.finalize_enabledA (g : Grw) (h : g.status = Status.COMPRESSION_ENABLED) :
    GzipA.finalize g =
      { headers := headerDel g.headers headerContentLength,
        sink := g.sink ++ gzipCompress g.gzBuf,
        committed := g.committed, finalStatus := some g.status, closeCount := 1 } := by
  unfold GzipA.finalize
  rw [if_pos h]

theorem GzipA.finalize_not_enabledA (g : Grw) (h : ¬ g.status = Status.COMPRESSION_ENABLED) :
    GzipA.finalize g =
      { headers := g.headers, sink := g.sink, committed := g.committed,
        finalStatus := some g.status, closeCount := 0 } := by
  unfold GzipA.finalize
  rw [if_neg h]

theorem GzipB.serveHTTP_passB (h : handler) (hdrs : Headers) (req : Request)
    (detect : List Nat → String) (next : List Ev)
    (hp : strContains (headerGet req.header headerAcceptEncoding) encodingGzip = false
      ∨ 0 < (headerGet req.header headerSecWebSocketKey).length
      ∨ headerGet hdrs headerContentEncoding = encodingGzip
      ∨ validGzipLevel h.compressionLevel = false) :
    GzipB.ServeHTTP h hdrs req detect next = runRaw next hdrs [] [] := by
  unfold GzipB.ServeHTTP
  by_cases h1 : strContains (headerGet req.header headerAcceptEncoding) encodingGzip = false
  · rw [if_pos h1]
  · rw [if_neg h1]
    by_cases h2 : 0 < (headerGet req.header headerSecWebSocketKey).length
    · rw [if_pos h2]
    · rw [if_neg h2]
      by_cases h3 : headerGet hdrs headerContentEncoding = encodingGzip
      · rw [if_pos h3]
      · rw [if_neg h3]
        by_cases h4 : validGzipLevel h.compressionLevel = false
        · rw [if_pos h4]
        · rcases hp with hp | hp | hp | hp
          · exact absurd hp h1
          · exact absurd hp h2
          · exact absurd hp h3
          · exact absurd hp h4

theorem GzipA.serveHTTP_passA (h : handler) (hdrs : Headers) (req : Request)
    (detect : List Nat → String) (next : List Ev)
    (hp : strContains (headerGet req.header headerAcceptEncoding) encodingGzip = false
      ∨ 0 < (headerGet req.header headerSecWebSocketKey).length
      ∨ headerGet hdrs headerContentEncoding = encodingGzip
      ∨ validGzipLevel h.compressionLevel = false) :
    GzipA.ServeHTTP h hdrs req detect next = runRaw next hdrs [] [] := by
  unfold GzipA.ServeHTTP
  by_cases h1 : strContains (headerGet req.header headerAcceptEncoding) encodingGzip = false
  · rw [if_pos h1]
  · rw [if_neg h1]
    by_cases h2 : 0 < (headerGet req.header headerSecWebSocketKey).length
    · rw [if_pos h2]
    · rw [if_neg h2]
      by_cases h3 : headerGet hdrs headerContentEncoding = encodingGzip
      · rw [if_pos h3]
      · rw [if_neg h3]
        by_cases h4 : validGzipLevel h.compressionLevel = false
        · rw [if_pos h4]
        · rcases hp with hp | hp | hp | hp
          · exact absurd hp h1
          · exact absurd hp h2
          · exact absurd hp h3
          · exact absurd hp h4

theorem GzipB.serveHTTP_wrappedB (h : handler) (hdrs : Headers) (req : Request)
    (detect : List Nat → String) (next : List Ev)
    (h1 : strContains (headerGet req.header headerAcceptEncoding) encodingGzip = true)
    (h2 : (headerGet req.header headerSecWebSocketKey).length = 0)
    (h3 : headerGet hdrs headerContentEncoding ≠ encodingGzip)
    (h4 : validGzipLevel h.compressionLevel = true) :
    GzipB.ServeHTTP h hdrs req detect next
      = GzipB.finalize (GzipB.run (mkCtx h detect req) next (initGrw hdrs)) := by
  unfold GzipB.ServeHTTP
  rw [if_neg (by simp [h1]), if_neg (by simp [h2]), if_neg h3, if_neg (by simp [h4])]

theorem GzipA.serveHTTP_wrappedA (h : handler) (hdrs : Headers) (req : Request)
    (detect : List Nat → String) (next : List Ev)
    (h1 : strContains (headerGet req.header headerAcceptEncoding) encodingGzip = true)
    (h2 : (headerGet req.header headerSecWebSocketKey).length = 0)
    (h3 : headerGet hdrs headerContentEncoding ≠ encodingGzip)
    (h4 : validGzipLevel h.compressionLevel = true) :
    GzipA.ServeHTTP h hdrs req detect next
      = GzipA.finalize (GzipA.run (mkCtx h detect req) next (initGrw hdrs)) := by
  unfold GzipA.ServeHTTP
  rw [if_neg (by simp [h1]), if_neg (by simp [h2]), if_neg h3, if_neg (by simp [h4])]

/-! Shared helpers for the claim theorems. -/

theorem gunzip_gzipCompress (l : List Nat) : gunzip (gzipCompress l) = some l := rfl

theorem allowed_none (ctx : Ctx) (g : Grw) (h : ctx.allowCompression = none) :
    allowed ctx g = true := by
  unfold allowed
  rw [h]

theorem GzipB.serveHTTP_casesB (h : handler) (hdrs : Headers) (req : Request)
    (detect : List Nat → String) (next : List Ev) :
    GzipB.ServeHTTP h hdrs req detect next = runRaw next hdrs [] []
    ∨ GzipB.ServeHTTP h hdrs req detect next
        = GzipB.finalize (GzipB.run (mkCtx h detect req) next (initGrw hdrs)) := by
  by_cases h1 : strContains (headerGet req.header headerAcceptEncoding) encodingGzip = false
  · exact Or.inl (GzipB.serveHTTP_passB h hdrs req detect next (Or.inl h1))
  · by_cases h2 : 0 < (headerGet req.header headerSecWebSocketKey).length
    · exact Or.inl (GzipB.serveHTTP_passB h hdrs req detect next (Or.inr (Or.inl h2)))
    · by_cases h3 : headerGet hdrs headerContentEncoding = encodingGzip
      · exact Or.inl
          (GzipB.serveHTTP_passB h hdrs req detect next (Or.inr (Or.inr (Or.inl h3))))
      · by_cases h4 : validGzipLevel h.compressionLevel = false
        · exact Or.inl
            (GzipB.serveHTTP_passB h hdrs req detect next (Or.inr (Or.inr (Or.inr h4))))
        · exact Or.inr (GzipB.serveHTTP_wrappedB h hdrs req detect next
            (by simpa using h1) (by omega) h3 (by simpa using h4))

theorem GzipA.serveHTTP_casesA (h : handler) (hdrs : Headers) (req : Request)
    (detect : List Nat → String) (next : List Ev) :
    GzipA.ServeHTTP h hdrs req detect next = runRaw next hdrs [] []
    ∨ GzipA.ServeHTTP h hdrs req detect next
        = GzipA.finalize (GzipA.run (mkCtx h detect req) next (initGrw hdrs)) := by
  by_cases h1 : strContains (headerGet req.header headerAcceptEncoding) encodingGzip = false
  · exact Or.inl (GzipA.serveHTTP_passA h hdrs req detect next (Or.inl h1))
  · by_cases h2 : 0 < (headerGet req.header headerSecWebSocketKey).length
    · exact Or.inl (GzipA.serveHTTP_passA h hdrs req detect next (Or.inr (Or.inl h2)))
    · by_cases h3 : headerGet hdrs headerContentEncoding = encodingGzip
      · exact Or.inl
          (GzipA.serveHTTP_passA h hdrs req detect next (Or.inr (Or.inr (Or.inl h3))))
      · by_cases h4 : validGzipLevel h.compressionLevel = false
        · exact Or.inl
            (GzipA.serveHTTP_passA h hdrs req detect next (Or.inr (Or.inr (Or.inr h4))))
        · exact Or.inr (GzipA.serveHTTP_wrappedA h hdrs req detect next
            (by simpa using h1) (by omega) h3 (by simpa using h4))

/-! Claim theorems. -/

/-- C1 counterexample: in the compressContent variant (src/gzip/gzip.go) an
explicit header-commit while the state is still Undecided does not trigger
the decision transition.  Running the downstream script that first commits
the headers and then writes a body chunk, the state is still
COMPRESSION_UNDEFINED after the header-commit and only the later body write
transitions it, so the transition is not triggered by the first of the two
calls as the claim states. -/
theorem C1_counterexample :
    (GzipA.run ctx0 [Ev.writeHeader 200] (initGrw [])).status
        = Status.COMPRESSION_UNDEFINED
    ∧ (GzipA.run ctx0 [Ev.writeHeader 200, Ev.write [70]] (initGrw [])).status
        = Status.COMPRESSION_ENABLED := by
  constructor
  · rfl
  · rfl

/-- C1 (amended): in both variants the decision state starts Undecided and,
once it has left Undecided, no later header-commit or body-write changes it
again.  In the WriteHeader variant (src/unnamed/part_001) the transition is
triggered by the first header-commit or body-write while still Undecided,
whichever comes first; in the compressContent variant (src/gzip/gzip.go)
only a body-write triggers the transition, and an explicit header-commit
leaves the state untouched. -/
theorem C1_decision_state_machine :
    (∀ hdrs : Headers, (initGrw hdrs).status = Status.COMPRESSION_UNDEFINED)
    ∧ (∀ (ctx : Ctx) (evs : List Ev) (g : Grw),
        g.status ≠ Status.COMPRESSION_UNDEFINED →
        (GzipB.run ctx evs g).status = g.status)
    ∧ (∀ (ctx : Ctx) (evs : List Ev) (g : Grw),
        g.status ≠ Status.COMPRESSION_UNDEFINED →
        (GzipA.run ctx evs g).status = g.status)
    ∧ (∀ (ctx : Ctx) (g : Grw) (c : Nat),
        (GzipB.WriteHeader ctx g c).status ≠ Status.COMPRESSION_UNDEFINED)
    ∧ (∀ (ctx : Ctx) (g : Grw) (b : List Nat),
        (GzipB.Write ctx g b).status ≠ Status.COMPRESSION_UNDEFINED)
    ∧ (∀ (ctx : Ctx) (g : Grw) (b : List Nat),
        (GzipA.Write ctx g b).status ≠ Status.COMPRESSION_UNDEFINED)
    ∧ (∀ (g : Grw) (c : Nat), (GzipA.WriteHeader g c).status = g.status) :=
  ⟨fun _ => rfl,
   fun ctx evs g h => GzipB.run_status_decidedB ctx evs g h,
   fun ctx evs g h => GzipA.run_status_decidedA ctx evs g h,
   fun ctx g c => GzipB.writeHeader_status_ne ctx g c,
   fun ctx g b => GzipB.write_status_neB ctx g b,
   fun ctx g b => GzipA.write_status_neA ctx g b,
   fun _ _ => rfl⟩

/-- C1 witness: the terminality part applied at a concrete decided state. -/
theorem C1_witness :
    (GzipB.run ctx0 [Ev.write [70]]
      { initGrw [] with status := Status.COMPRESSION_DISABLED }).status
      = Status.COMPRESSION_DISABLED :=
  C1_decision_state_machine.2.1 ctx0 [Ev.write [70]]
    { initGrw [] with status := Status.COMPRESSION_DISABLED } (by decide)

/-- C2 counterexample: in the compressContent variant (src/gzip/gzip.go) a
previously set Content-Length header is not removed at the transition
instant: right after the allowed transition the header still carries its
old value, even though Content-Encoding has been set. -/
theorem C2_counterexample :
    (GzipA.compressContent ctx0 (initGrw [(headerContentLength, "100")])).1.status
        = Status.COMPRESSION_ENABLED
    ∧ headerGet (GzipA.compressContent ctx0
          (initGrw [(headerContentLength, "100")])).1.headers headerContentLength
        = "100"
    ∧ headerGet (GzipA.compressContent ctx0
          (initGrw [(headerContentLength, "100")])).1.headers headerContentEncoding
        = encodingGzip := by
  refine ⟨rfl, ?_, ?_⟩
  · decide
  · decide

/-- C2 (amended): in the WriteHeader variant (src/unnamed/part_001) an
allowed transition performs all three header mutations at the transition
instant: Content-Length is removed, Content-Encoding becomes gzip and Vary
becomes Accept-Encoding; a refused transition mutates nothing.  In the
compressContent variant (src/gzip/gzip.go) the allowed transition only sets
Content-Encoding and Vary and leaves Content-Length untouched; that header
is instead deleted after the downstream chain returns, in the deferred
finalizer, whenever compression ended up enabled; a refused transition
mutates nothing. -/
theorem C2_header_mutations :
    (∀ (ctx : Ctx) (g : Grw) (c : Nat), g.status = Status.COMPRESSION_UNDEFINED →
      (allowed ctx g = true →
        headerGet (GzipB.WriteHeader ctx g c).headers headerContentLength = ""
        ∧ headerGet (GzipB.WriteHeader ctx g c).headers headerContentEncoding = encodingGzip
        ∧ headerGet (GzipB.WriteHeader ctx g c).headers headerVary = headerAcceptEncoding
        ∧ (GzipB.WriteHeader ctx g c).status = Status.COMPRESSION_ENABLED)
      ∧ (allowed ctx g = false →
        (GzipB.WriteHeader ctx g c).headers = g.headers
        ∧ (GzipB.WriteHeader ctx g c).status = Status.COMPRESSION_DISABLED))
    ∧ (∀ (ctx : Ctx) (g : Grw), g.status = Status.COMPRESSION_UNDEFINED →
      (allowed ctx g = true →
        headerGet (GzipA.compressContent ctx g).1.headers headerContentEncoding
          = encodingGzip
        ∧ headerGet (GzipA.compressContent ctx g).1.headers headerVary
          = headerAcceptEncoding
        ∧ headerGet (GzipA.compressContent ctx g).1.headers headerContentLength
          = headerGet g.headers headerContentLength
        ∧ (GzipA.compressContent ctx g).1.status = Status.COMPRESSION_ENABLED)
      ∧ (allowed ctx g = false →
        (GzipA.compressContent ctx g).1.headers = g.headers
        ∧ (GzipA.compressContent ctx g).1.status = Status.COMPRESSION_DISABLED))
    ∧ (∀ (h : handler) (hdrs : Headers) (req : Request)
        (detect : List Nat → String) (next : List Ev),
        (GzipA.ServeHTTP h hdrs req detect next).finalStatus
            = some Status.COMPRESSION_ENABLED →
        headerGet (GzipA.ServeHTTP h hdrs req detect next).headers
          headerContentLength = "") := by
  refine ⟨?_, ?_, ?_⟩
  · intro ctx g c h
    constructor
    · intro ha
      rw [GzipB.writeHeader_undecided_allowed ctx g c h ha]
      refine ⟨?_, ?_, ?_, rfl⟩
      · show headerGet (headerSet (headerSet (headerDel g.headers headerContentLength)
          headerContentEncoding encodingGzip) headerVary headerAcceptEncoding)
          headerContentLength = ""
        rw [headerGet_set_ne _ _ _ _ (by decide), headerGet_set_ne _ _ _ _ (by decide),
          headerGet_del_self]
      · show headerGet (headerSet (headerSet (headerDel g.headers headerContentLength)
          headerContentEncoding encodingGzip) headerVary headerAcceptEncoding)
          headerContentEncoding = encodingGzip
        rw [headerGet_set_ne _ _ _ _ (by decide), headerGet_set_self]
      · show headerGet (headerSet (headerSet (headerDel g.headers headerContentLength)
          headerContentEncoding encodingGzip) headerVary headerAcceptEncoding)
          headerVary = headerAcceptEncoding
        rw [headerGet_set_self]
    · intro ha
      rw [GzipB.writeHeader_undecided_refused ctx g c h ha]
      exact ⟨rfl, rfl⟩
  · intro ctx g h
    constructor
    · intro ha
      rw [GzipA.compressContent_undecided_allowed ctx g h ha]
      refine ⟨?_, ?_, ?_, rfl⟩
      · show headerGet (headerSet (headerSet g.headers headerContentEncoding encodingGzip)
          headerVary headerAcceptEncoding) headerContentEncoding = encodingGzip
        rw [headerGet_set_ne _ _ _ _ (by decide), headerGet_set_self]
      · show headerGet (headerSet (headerSet g.headers headerContentEncoding encodingGzip)
          headerVary headerAcceptEncoding) headerVary = headerAcceptEncoding
        rw [headerGet_set_self]
      · show headerGet (headerSet (headerSet g.headers headerContentEncoding encodingGzip)
          headerVary headerAcceptEncoding) headerContentLength
          = headerGet g.headers headerContentLength
        rw [headerGet_set_ne _ _ _ _ (by decide), headerGet_set_ne _ _ _ _ (by decide)]
    · intro ha
      rw [GzipA.compressContent_undecided_refused ctx g h ha]
      exact ⟨rfl, rfl⟩
  · intro h hdrs req detect next hfs
    rcases GzipA.serveHTTP_casesA h hdrs req detect next with hc | hc
    · rw [hc, runRaw_finalStatus] at hfs
      exact Option.noConfusion hfs
    · rw [hc] at hfs ⊢
      rw [GzipA.finalize_finalStatusA] at hfs
      have hEn := Option.some.inj hfs
      rw [GzipA.finalize_enabledA _ hEn]
      show headerGet (headerDel
        (GzipA.run (mkCtx h detect req) next (initGrw hdrs)).headers
        headerContentLength) headerContentLength = ""
      rw [headerGet_del_self]

/-- C2 witness: the WriteHeader variant mutations at a concrete allowed
transition with a previously set Content-Length header. -/
theorem C2_witness :
    headerGet (GzipB.WriteHeader ctx0 (initGrw [(headerContentLength, "100")]) 200).headers
        headerContentLength = ""
    ∧ headerGet (GzipB.WriteHeader ctx0 (initGrw [(headerContentLength, "100")]) 200).headers
        headerContentEncoding = encodingGzip
    ∧ headerGet (GzipB.WriteHeader ctx0 (initGrw [(headerContentLength, "100")]) 200).headers
        headerVary = headerAcceptEncoding
    ∧ (GzipB.WriteHeader ctx0 (initGrw [(headerContentLength, "100")]) 200).status
        = Status.COMPRESSION_ENABLED :=
  (C2_header_mutations.1 ctx0 (initGrw [(headerContentLength, "100")]) 200 rfl).1 rfl

/-- C3: for a request without the gzip acceptance token both variants call
the downstream handler on the undecorated writer, so the sink receives
exactly the downstream bytes and no header is touched by the middleware;
for a request that accepts gzip, carries no WebSocket key and for which
compression ended up enabled, decompressing the sink bytes gives exactly
the bytes the downstream handler wrote. -/
theorem C3_roundtrip (h : handler) (hdrs : Headers) (req : Request)
    (detect : List Nat → String) (next : List Ev) :
    (strContains (headerGet req.header headerAcceptEncoding) encodingGzip = false →
      GzipB.ServeHTTP h hdrs req detect next = runRaw next hdrs [] []
      ∧ GzipA.ServeHTTP h hdrs req detect next = runRaw next hdrs [] []
      ∧ (GzipB.ServeHTTP h hdrs req detect next).sink = writesOf next
      ∧ (GzipA.ServeHTTP h hdrs req detect next).sink = writesOf next)
    ∧ (strContains (headerGet req.header headerAcceptEncoding) encodingGzip = true →
      (headerGet req.header headerSecWebSocketKey).length = 0 →
      ((GzipB.ServeHTTP h hdrs req detect next).finalStatus
          = some Status.COMPRESSION_ENABLED →
        gunzip (GzipB.ServeHTTP h hdrs req detect next).sink = some (writesOf next))
      ∧ ((GzipA.ServeHTTP h hdrs req detect next).finalStatus
          = some Status.COMPRESSION_ENABLED →
        gunzip (GzipA.ServeHTTP h hdrs req detect next).sink = some (writesOf next))) := by
  constructor
  · intro hae
    have hb := GzipB.serveHTTP_passB h hdrs req detect next (Or.inl hae)
    have ha := GzipA.serveHTTP_passA h hdrs req detect next (Or.inl hae)
    refine ⟨hb, ha, ?_, ?_⟩
    · rw [hb, runRaw_sink next hdrs [] []]
      exact List.nil_append _
    · rw [ha, runRaw_sink next hdrs [] []]
      exact List.nil_append _
  · intro hae hws
    constructor
    · intro hfs
      rcases GzipB.serveHTTP_casesB h hdrs req detect next with hc | hc
      · rw [hc, runRaw_finalStatus] at hfs
        exact Option.noConfusion hfs
      · rw [hc] at hfs ⊢
        rw [GzipB.finalize_finalStatusB] at hfs
        have hEn := Option.some.inj hfs
        have hro := (GzipB.run_routesB (mkCtx h detect req) next (initGrw hdrs)).1 hEn
        rw [GzipB.finalize_enabledB _ hEn]
        show gunzip ((GzipB.run (mkCtx h detect req) next (initGrw hdrs)).sink
          ++ gzipCompress (GzipB.run (mkCtx h detect req) next (initGrw hdrs)).gzBuf)
          = some (writesOf next)
        rw [hro.2, hro.1]
        show gunzip ([] ++ gzipCompress ([] ++ writesOf next)) = some (writesOf next)
        rw [List.nil_append, List.nil_append, gunzip_gzipCompress]
    · intro hfs
      rcases GzipA.serveHTTP_casesA h hdrs req detect next with hc | hc
      · rw [hc, runRaw_finalStatus] at hfs
        exact Option.noConfusion hfs
      · rw [hc] at hfs ⊢
        rw [GzipA.finalize_finalStatusA] at hfs
        have hEn := Option.some.inj hfs
        have hro := (GzipA.run_routesA (mkCtx h detect req) next (initGrw hdrs)).1 hEn
        rw [GzipA.finalize_enabledA _ hEn]
        show gunzip ((GzipA.run (mkCtx h detect req) next (initGrw hdrs)).sink
          ++ gzipCompress (GzipA.run (mkCtx h detect req) next (initGrw hdrs)).gzBuf)
          = some (writesOf next)
        rw [hro.2, hro.1]
        show gunzip ([] ++ gzipCompress ([] ++ writesOf next)) = some (writesOf next)
        rw [List.nil_append, List.nil_append, gunzip_gzipCompress]

/-- C3 witness: concrete passthrough and roundtrip runs. -/
theorem C3_witness :
    (GzipB.ServeHTTP Default [] reqNone detect0 [Ev.write [70, 111]]).sink
        = writesOf [Ev.write [70, 111]]
    ∧ gunzip (GzipB.ServeHTTP Default [] reqGz detect0 [Ev.write [70, 111]]).sink
        = some (writesOf [Ev.write [70, 111]])
    ∧ gunzip (GzipA.ServeHTTP Default [] reqGz detect0 [Ev.write [70, 111]]).sink
        = some (writesOf [Ev.write [70, 111]]) :=
  ⟨((C3_roundtrip Default [] reqNone detect0 [Ev.write [70, 111]]).1 (by decide)).2.2.1,
   ((C3_roundtrip Default [] reqGz detect0 [Ev.write [70, 111]]).2 (by decide)
     (by decide)).1 (by decide),
   ((C3_roundtrip Default [] reqGz detect0 [Ev.write [70, 111]]).2 (by decide)
     (by decide)).2 (by decide)⟩

/-- C4: in both variants the gzip writer is closed exactly once when the
final decision state is Enabled and never otherwise; on the passthrough
path, or when the state ends Disabled or still Undecided because downstream
never wrote, the close count is zero. -/
theorem C4_finalize_iff_enabled :
    (∀ (h : handler) (hdrs : Headers) (req : Request)
        (detect : List Nat → String) (next : List Ev),
      (GzipB.ServeHTTP h hdrs req detect next).closeCount
        = (if (GzipB.ServeHTTP h hdrs req detect next).finalStatus
            = some Status.COMPRESSION_ENABLED then 1 else 0))
    ∧ (∀ (h : handler) (hdrs : Headers) (req : Request)
        (detect : List Nat → String) (next : List Ev),
      (GzipA.ServeHTTP h hdrs req detect next).closeCount
        = (if (GzipA.ServeHTTP h hdrs req detect next).finalStatus
            = some Status.COMPRESSION_ENABLED then 1 else 0)) := by
  constructor
  · intro h hdrs req detect next
    rcases GzipB.serveHTTP_casesB h hdrs req detect next with hc | hc
    · rw [hc, runRaw_closeCount next hdrs [] [], runRaw_finalStatus next hdrs [] []]
      simp
    · rw [hc, GzipB.finalize_closeCountB, GzipB.finalize_finalStatusB]
      simp
  · intro h hdrs req detect next
    rcases GzipA.serveHTTP_casesA h hdrs req detect next with hc | hc
    · rw [hc, runRaw_closeCount next hdrs [] [], runRaw_finalStatus next hdrs [] []]
      simp
    · rw [hc, GzipA.finalize_closeCountA, GzipA.finalize_finalStatusA]
      simp

/-- C4 witness: concrete runs, one enabled and one with no downstream
write. -/
theorem C4_witness :
    (GzipB.ServeHTTP Default [] reqGz detect0 [Ev.write [70]]).closeCount
      = (if (GzipB.ServeHTTP Default [] reqGz detect0 [Ev.write [70]]).finalStatus
          = some Status.COMPRESSION_ENABLED then 1 else 0)
    ∧ (GzipA.ServeHTTP Default [] reqGz detect0 []).closeCount
      = (if (GzipA.ServeHTTP Default [] reqGz detect0 []).finalStatus
          = some Status.COMPRESSION_ENABLED then 1 else 0) :=
  ⟨C4_finalize_iff_enabled.1 Default [] reqGz detect0 [Ev.write [70]],
   C4_finalize_iff_enabled.2 Default [] reqGz detect0 []⟩

/-- C5: when any of the three ineligibility conditions holds, the gzip
acceptance token missing from the Accept-Encoding header, a
Sec-WebSocket-Key header present on the request, or the response
Content-Encoding header already equal to gzip, both variants call the next
handler on the undecorated writer and the whole cycle equals the raw run. -/
theorem C5_ineligible_pass_through (h : handler) (hdrs : Headers) (req : Request)
    (detect : List Nat → String) (next : List Ev)
    (hp : strContains (headerGet req.header headerAcceptEncoding) encodingGzip = false
      ∨ 0 < (headerGet req.header headerSecWebSocketKey).length
      ∨ headerGet hdrs headerContentEncoding = encodingGzip) :
    GzipB.ServeHTTP h hdrs req detect next = runRaw next hdrs [] []
    ∧ GzipA.ServeHTTP h hdrs req detect next = runRaw next hdrs [] [] :=
  ⟨GzipB.serveHTTP_passB h hdrs req detect next (hp.imp id (Or.imp id Or.inl)),
   GzipA.serveHTTP_passA h hdrs req detect next (hp.imp id (Or.imp id Or.inl))⟩

/-- C5 witness: a WebSocket handshake request is passed through although it
accepts gzip. -/
theorem C5_witness :
    GzipB.ServeHTTP Default [] { header := [(headerAcceptEncoding, "gzip"),
        (headerSecWebSocketKey, "Test")] } detect0 [Ev.write [70]]
      = runRaw [Ev.write [70]] [] [] []
    ∧ GzipA.ServeHTTP Default [] { header := [(headerAcceptEncoding, "gzip"),
        (headerSecWebSocketKey, "Test")] } detect0 [Ev.write [70]]
      = runRaw [Ev.write [70]] [] [] [] :=
  C5_ineligible_pass_through Default []
    { header := [(headerAcceptEncoding, "gzip"), (headerSecWebSocketKey, "Test")] }
    detect0 [Ev.write [70]] (Or.inr (Or.inl (by decide)))

/-- C6: a handler built by New with an invalid compression level degrades to
passthrough in both variants: the codec constructor fails inside ServeHTTP,
next runs on the undecorated writer, the body reaching the sink equals what
downstream wrote, and no error is surfaced. -/
theorem C6_invalid_level_degrades (level : Int) (fn : Option AllowCompressionFunc)
    (hdrs : Headers) (req : Request) (detect : List Nat → String) (next : List Ev)
    (hlv : validGzipLevel level = false) :
    GzipB.ServeHTTP (New level fn) hdrs req detect next = runRaw next hdrs [] []
    ∧ GzipA.ServeHTTP (New level fn) hdrs req detect next = runRaw next hdrs [] []
    ∧ (GzipB.ServeHTTP (New level fn) hdrs req detect next).sink = writesOf next
    ∧ (GzipA.ServeHTTP (New level fn) hdrs req detect next).sink = writesOf next := by
  have hlv2 : validGzipLevel (New level fn).compressionLevel = false := hlv
  have hb := GzipB.serveHTTP_passB (New level fn) hdrs req detect next
    (Or.inr (Or.inr (Or.inr hlv2)))
  have ha := GzipA.serveHTTP_passA (New level fn) hdrs req detect next
    (Or.inr (Or.inr (Or.inr hlv2)))
  refine ⟨hb, ha, ?_, ?_⟩
  · rw [hb, runRaw_sink next hdrs [] []]
    exact List.nil_append _
  · rw [ha, runRaw_sink next hdrs [] []]
    exact List.nil_append _

/-- C6 witness: the invalid level 11 used by the repository test suite. -/
theorem C6_witness :
    GzipB.ServeHTTP (New 11 none) [] reqGz detect0 [Ev.write [70]]
      = runRaw [Ev.write [70]] [] [] []
    ∧ (GzipA.ServeHTTP (New 11 none) [] reqGz detect0 [Ev.write [70]]).sink
      = writesOf [Ev.write [70]] :=
  ⟨(C6_invalid_level_degrades 11 none [] reqGz detect0 [Ev.write [70]] (by decide)).1,
   (C6_invalid_level_degrades 11 none [] reqGz detect0 [Ev.write [70]] (by decide)).2.2.2⟩

/-- C7: invoking the decision transition logic a second time is a no-op in
both variants: a second header-commit, or a write after the deciding call,
leaves the header map, the decision state and the callback evaluation count
unchanged, a second compressContent call returns the identical result, and
over a whole cycle the allow callback is evaluated at most once. -/
theorem C7_transition_idempotent :
    (∀ (ctx : Ctx) (g : Grw) (c1 c2 : Nat),
      (GzipB.WriteHeader ctx (GzipB.WriteHeader ctx g c1) c2).headers
          = (GzipB.WriteHeader ctx g c1).headers
      ∧ (GzipB.WriteHeader ctx (GzipB.WriteHeader ctx g c1) c2).status
          = (GzipB.WriteHeader ctx g c1).status
      ∧ (GzipB.WriteHeader ctx (GzipB.WriteHeader ctx g c1) c2).predCalls
          = (GzipB.WriteHeader ctx g c1).predCalls)
    ∧ (∀ (ctx : Ctx) (g : Grw) (c : Nat) (b : List Nat),
      (GzipB.Write ctx (GzipB.WriteHeader ctx g c) b).headers
          = (GzipB.WriteHeader ctx g c).headers
      ∧ (GzipB.Write ctx (GzipB.WriteHeader ctx g c) b).status
          = (GzipB.WriteHeader ctx g c).status
      ∧ (GzipB.Write ctx (GzipB.WriteHeader ctx g c) b).predCalls
          = (GzipB.WriteHeader ctx g c).predCalls)
    ∧ (∀ (ctx : Ctx) (g : Grw) (b1 b2 : List Nat),
      (GzipB.Write ctx (GzipB.Write ctx g b1) b2).headers = (GzipB.Write ctx g b1).headers
      ∧ (GzipB.Write ctx (GzipB.Write ctx g b1) b2).status = (GzipB.Write ctx g b1).status
      ∧ (GzipB.Write ctx (GzipB.Write ctx g b1) b2).predCalls
          = (GzipB.Write ctx g b1).predCalls)
    ∧ (∀ (ctx : Ctx) (g : Grw),
      GzipA.compressContent ctx (GzipA.compressContent ctx g).1
        = GzipA.compressContent ctx g)
    ∧ (∀ (ctx : Ctx) (evs : List Ev) (hdrs : Headers),
      (GzipB.run ctx evs (initGrw hdrs)).predCalls ≤ 1)
    ∧ (∀ (ctx : Ctx) (evs : List Ev) (hdrs : Headers),
      (GzipA.run ctx evs (initGrw hdrs)).predCalls ≤ 1) := by
  refine ⟨?_, ?_, ?_, ?_, ?_, ?_⟩
  · intro ctx g c1 c2
    rw [GzipB.writeHeader_decided ctx _ c2 (GzipB.writeHeader_status_ne ctx g c1)]
    exact ⟨rfl, rfl, rfl⟩
  · intro ctx g c b
    rw [GzipB.write_decided ctx _ b (GzipB.writeHeader_status_ne ctx g c)]
    exact ⟨route_headers _ _, route_status _ _, route_predCalls _ _⟩
  · intro ctx g b1 b2
    rw [GzipB.write_decided ctx _ b2 (GzipB.write_status_neB ctx g b1)]
    exact ⟨route_headers _ _, route_status _ _, route_predCalls _ _⟩
  · intro ctx g
    rw [GzipA.compressContent_decided ctx _ (GzipA.compressContent_status_ne ctx g),
      ← GzipA.compressContent_snd ctx g]
  · intro ctx evs hdrs
    exact GzipB.run_predCalls_le_oneB ctx evs hdrs
  · intro ctx evs hdrs
    exact GzipA.run_predCalls_le_oneA ctx evs hdrs

/-- C7 witness: a concrete double header-commit and a two write cycle. -/
theorem C7_witness :
    (GzipB.WriteHeader ctx0 (GzipB.WriteHeader ctx0 (initGrw []) 200) 200).headers
        = (GzipB.WriteHeader ctx0 (initGrw []) 200).headers
    ∧ (GzipA.run ctx0 [Ev.write [70], Ev.write [71]] (initGrw [])).predCalls ≤ 1 :=
  ⟨(C7_transition_idempotent.1 ctx0 (initGrw []) 200 200).1,
   C7_transition_idempotent.2.2.2.2.2 ctx0 [Ev.write [70], Ev.write [71]] []⟩

/-- C8: a body write while still Undecided with no Content-Type set sniffs
the type from that raw chunk, the transition is then forced even without an
explicit header-commit, and the decision callback sees the header map with
the sniffed Content-Type already in place, in both variants. -/
theorem C8_sniff_then_transition (ctx : Ctx) (g : Grw) (b : List Nat)
    (h : g.status = Status.COMPRESSION_UNDEFINED)
    (hct : headerGet g.headers headerContentType = "") :
    (headerGet (GzipB.Write ctx g b).headers headerContentType = ctx.detect b
      ∧ (GzipB.Write ctx g b).status ≠ Status.COMPRESSION_UNDEFINED
      ∧ ((GzipB.Write ctx g b).status = Status.COMPRESSION_ENABLED
          ↔ allowed ctx { g with
              headers := headerSet g.headers headerContentType (ctx.detect b) } = true))
    ∧ (headerGet (GzipA.Write ctx g b).headers headerContentType = ctx.detect b
      ∧ (GzipA.Write ctx g b).status ≠ Status.COMPRESSION_UNDEFINED
      ∧ ((GzipA.Write ctx g b).status = Status.COMPRESSION_ENABLED
          ↔ allowed ctx { g with
              headers := headerSet g.headers headerContentType (ctx.detect b) } = true)) := by
  have hS : sniffCT ctx g b
      = { g with headers := headerSet g.headers headerContentType (ctx.detect b) } :=
    sniffCT_of_empty ctx g b hct
  have hSst : (sniffCT ctx g b).status = Status.COMPRESSION_UNDEFINED := by
    rw [sniffCT_status]
    exact h
  constructor
  · refine ⟨?_, GzipB.write_status_neB ctx g b, ?_⟩
    · rw [GzipB.write_undecided ctx g b h, route_headers]
      cases hab : allowed ctx (sniffCT ctx g b) with
      | true =>
        rw [GzipB.writeHeader_undecided_allowed ctx _ 200 hSst hab]
        show headerGet (headerSet (headerSet (headerDel (sniffCT ctx g b).headers
          headerContentLength) headerContentEncoding encodingGzip) headerVary
          headerAcceptEncoding) headerContentType = ctx.detect b
        rw [headerGet_set_ne _ _ _ _ (by decide), headerGet_set_ne _ _ _ _ (by decide),
          headerGet_del_ne _ _ _ (by decide), hS]
        show headerGet (headerSet g.headers headerContentType (ctx.detect b))
          headerContentType = ctx.detect b
        rw [headerGet_set_self]
      | false =>
        rw [GzipB.writeHeader_undecided_refused ctx _ 200 hSst hab]
        show headerGet (sniffCT ctx g b).headers headerContentType = ctx.detect b
        rw [hS]
        show headerGet (headerSet g.headers headerContentType (ctx.detect b))
          headerContentType = ctx.detect b
        rw [headerGet_set_self]
    · rw [GzipB.write_undecided ctx g b h, route_status]
      cases hab : allowed ctx (sniffCT ctx g b) with
      | true =>
        rw [GzipB.writeHeader_undecided_allowed ctx _ 200 hSst hab]
        rw [hS] at hab
        simp [hab]
      | false =>
        rw [GzipB.writeHeader_undecided_refused ctx _ 200 hSst hab]
        rw [hS] at hab
        simp [hab]
  · refine ⟨?_, GzipA.write_status_neA ctx g b, ?_⟩
    · rw [GzipA.write_eq, route_headers]
      cases hab : allowed ctx (sniffCT ctx g b) with
      | true =>
        rw [GzipA.compressContent_undecided_allowed ctx _ hSst hab]
        show headerGet (headerSet (headerSet (sniffCT ctx g b).headers
          headerContentEncoding encodingGzip) headerVary headerAcceptEncoding)
          headerContentType = ctx.detect b
        rw [headerGet_set_ne _ _ _ _ (by decide), headerGet_set_ne _ _ _ _ (by decide), hS]
        show headerGet (headerSet g.headers headerContentType (ctx.detect b))
          headerContentType = ctx.detect b
        rw [headerGet_set_self]
      | false =>
        rw [GzipA.compressContent_undecided_refused ctx _ hSst hab]
        show headerGet (sniffCT ctx g b).headers headerContentType = ctx.detect b
        rw [hS]
        show headerGet (headerSet g.headers headerContentType (ctx.detect b))
          headerContentType = ctx.detect b
        rw [headerGet_set_self]
    · rw [GzipA.write_eq, route_status]
      cases hab : allowed ctx (sniffCT ctx g b) with
      | true =>
        rw [GzipA.compressContent_undecided_allowed ctx _ hSst hab]
        rw [hS] at hab
        simp [hab]
      | false =>
        rw [GzipA.compressContent_undecided_refused ctx _ hSst hab]
        rw [hS] at hab
        simp [hab]

/-- C8 witness: a first write on a fresh writer with no Content-Type. -/
theorem C8_witness :
    headerGet (GzipB.Write ctx0 (initGrw []) [70]).headers headerContentType
        = ctx0.detect [70]
    ∧ (GzipA.Write ctx0 (initGrw []) [70]).status ≠ Status.COMPRESSION_UNDEFINED :=
  ⟨(C8_sniff_then_transition ctx0 (initGrw []) [70] rfl rfl).1.1,
   (C8_sniff_then_transition ctx0 (initGrw []) [70] rfl rfl).2.2.1⟩

/-- C9: at an allowed transition both variants Set the Vary header, so the
final header map holds exactly one Vary entry with value Accept-Encoding
and any previously stored Vary value is gone. -/
theorem C9_vary_replaced (ctx : Ctx) (g : Grw) (c : Nat)
    (h : g.status = Status.COMPRESSION_UNDEFINED) (ha : allowed ctx g = true) :
    List.filter (fun p => p.1 == headerVary) (GzipB.WriteHeader ctx g c).headers
        = [(headerVary, headerAcceptEncoding)]
    ∧ List.filter (fun p => p.1 == headerVary) (GzipA.compressContent ctx g).1.headers
        = [(headerVary, headerAcceptEncoding)] := by
  constructor
  · rw [GzipB.writeHeader_undecided_allowed ctx g c h ha]
    show List.filter (fun p => p.1 == headerVary)
      (headerSet (headerSet (headerDel g.headers headerContentLength)
        headerContentEncoding encodingGzip) headerVary headerAcceptEncoding)
      = [(headerVary, headerAcceptEncoding)]
    exact filter_headerSet_self _ headerVary headerAcceptEncoding
  · rw [GzipA.compressContent_undecided_allowed ctx g h ha]
    show List.filter (fun p => p.1 == headerVary)
      (headerSet (headerSet g.headers headerContentEncoding encodingGzip)
        headerVary headerAcceptEncoding)
      = [(headerVary, headerAcceptEncoding)]
    exact filter_headerSet_self _ headerVary headerAcceptEncoding

/-- C9 witness: a downstream Vary value Accept-Language is replaced, not
appended to. -/
theorem C9_witness :
    List.filter (fun p => p.1 == headerVary)
      (GzipB.WriteHeader ctx0 (initGrw [(headerVary, "Accept-Language")]) 200).headers
      = [(headerVary, headerAcceptEncoding)]
    ∧ List.filter (fun p => p.1 == headerVary)
      (GzipA.compressContent ctx0 (initGrw [(headerVary, "Accept-Language")])).1.headers
      = [(headerVary, headerAcceptEncoding)] :=
  C9_vary_replaced ctx0 (initGrw [(headerVary, "Accept-Language")]) 200 rfl rfl

/-- C10: the already-encoded skip fires exactly when the response
Content-Encoding equals the string gzip; for any other value the handler
still wraps the writer (a wrapper decision state exists), and with the
default allow behaviour a body write is compressed again on top of the
declared encoding. -/
theorem C10_skip_only_exact_match (h : handler) (hdrs : Headers) (req : Request)
    (detect : List Nat → String) (next : List Ev) (b : List Nat) :
    (headerGet hdrs headerContentEncoding = encodingGzip →
      GzipB.ServeHTTP h hdrs req detect next = runRaw next hdrs [] []
      ∧ GzipA.ServeHTTP h hdrs req detect next = runRaw next hdrs [] [])
    ∧ (strContains (headerGet req.header headerAcceptEncoding) encodingGzip = true →
      (headerGet req.header headerSecWebSocketKey).length = 0 →
      headerGet hdrs headerContentEncoding ≠ encodingGzip →
      validGzipLevel h.compressionLevel = true →
      ((GzipB.ServeHTTP h hdrs req detect next).finalStatus.isSome = true
      ∧ (GzipA.ServeHTTP h hdrs req detect next).finalStatus.isSome = true
      ∧ (h.allowCompression = none → next = [Ev.write b] →
          (GzipB.ServeHTTP h hdrs req detect next).sink = gzipCompress b))) := by
  constructor
  · intro hce
    exact ⟨GzipB.serveHTTP_passB h hdrs req detect next (Or.inr (Or.inr (Or.inl hce))),
      GzipA.serveHTTP_passA h hdrs req detect next (Or.inr (Or.inr (Or.inl hce)))⟩
  · intro h1 h2 h3 h4
    have hwB := GzipB.serveHTTP_wrappedB h hdrs req detect next h1 h2 h3 h4
    have hwA := GzipA.serveHTTP_wrappedA h hdrs req detect next h1 h2 h3 h4
    refine ⟨?_, ?_, ?_⟩
    · rw [hwB, GzipB.finalize_finalStatusB]
      rfl
    · rw [hwA, GzipA.finalize_finalStatusA]
      rfl
    · intro hallow hnext
      subst hnext
      have hal : allowed (mkCtx h detect req)
          (sniffCT (mkCtx h detect req) (initGrw hdrs) b) = true :=
        allowed_none _ _ hallow
      have hwstat : (GzipB.Write (mkCtx h detect req) (initGrw hdrs) b).status
          = Status.COMPRESSION_ENABLED := by
        rw [GzipB.write_undecided (mkCtx h detect req) (initGrw hdrs) b
            (by simp [initGrw]), route_status,
          GzipB.writeHeader_undecided_allowed (mkCtx h detect req) _ 200
            (by simp [sniffCT_status, initGrw]) hal]
      have hro := (GzipB.write_routesB (mkCtx h detect req) (initGrw hdrs) b).1 hwstat
      rw [hwB]
      have hrun : GzipB.run (mkCtx h detect req) [Ev.write b] (initGrw hdrs)
          = GzipB.Write (mkCtx h detect req) (initGrw hdrs) b := rfl
      rw [hrun, GzipB.finalize_enabledB _ hwstat]
      show (GzipB.Write (mkCtx h detect req) (initGrw hdrs) b).sink
        ++ gzipCompress (GzipB.Write (mkCtx h detect req) (initGrw hdrs) b).gzBuf
        = gzipCompress b
      rw [hro.2, hro.1]
      show [] ++ gzipCompress ([] ++ b) = gzipCompress b
      rw [List.nil_append, List.nil_append]

/-- C10 witness: the skip fires on the exact value gzip, while the list
value gzip, identity is wrapped and compressed a second time. -/
theorem C10_witness :
    GzipB.ServeHTTP Default [(headerContentEncoding, "gzip")] reqGz detect0
        [Ev.write [1, 2, 3]]
      = runRaw [Ev.write [1, 2, 3]] [(headerContentEncoding, "gzip")] [] []
    ∧ (GzipB.ServeHTTP Default [(headerContentEncoding, "gzip, identity")] reqGz detect0
        [Ev.write [1, 2, 3]]).sink = gzipCompress [1, 2, 3] :=
  ⟨((C10_skip_only_exact_match Default [(headerContentEncoding, "gzip")] reqGz detect0
      [Ev.write [1, 2, 3]] [1, 2, 3]).1 (by decide)).1,
   ((C10_skip_only_exact_match Default [(headerContentEncoding, "gzip, identity")] reqGz
      detect0 [Ev.write [1, 2, 3]] [1, 2, 3]).2 (by decide) (by decide) (by decide)
      (by decide)).2.2 rfl rfl⟩
